import Mathlib

/-!
Verification of the primitive-assembly engine of `pa.h` (software rasterizer
front end).  The three assembler variants — the cut-aware `PA_STATE_CUT`, the
optimized `PA_STATE_OPT`, and the tessellation-output `PA_TESS` — are embedded
shallowly: each C++ struct becomes a Lean structure, each member function a
Lean function on that structure, machine integers become `Nat`/`Int` with
explicit wraparound where overflow matters, and the per-vertex state-machine
loop of `ProcessVerts` becomes a fuel-indexed recursion (the fuel is the
remaining-vertex count, which the loop body decrements on every iteration).
-/

/-- SIMD batch width W.  `KNOB_SIMD_WIDTH` is 8 throughout `pa.h`
(`PA_STATE_CUT` initializes `vPrimId` with 8 lanes, `ComputeOffsets` shifts
by 3 and masks with 7, and `PA_TESS::Assemble` statically asserts width 8). -/
def KNOB_SIMD_WIDTH : Nat := 8

/-- Modelled from the spec: `MAX_NUM_VERTS_PER_PRIM` lives in `frontend.h`
(not under `src/`); the spec fixes it as the maximum vertex count of any
supported primitive including adjacency, i.e. 6. -/
def MAX_NUM_VERTS_PER_PRIM : Nat := 6

/-- Modelled from the spec: the number of attribute slots of a `simdvertex`
(`KNOB_NUM_ATTRIBUTES`, defined in the knobs header, not under `src/`).  Its
exact value is immaterial to every theorem below; it only scales the
vertex-batch stride used by the gather-offset computation. -/
def KNOB_NUM_ATTRIBUTES : Nat := 32

/-- Byte size of one `simdvector`: 4 components x 8 lanes x 4 bytes. -/
def sizeofSimdvector : Nat := 4 * KNOB_SIMD_WIDTH * 4

/-- Byte size of one `simdvertex`: one `simdvector` per attribute slot. -/
def sizeofSimdvertex : Nat := KNOB_NUM_ATTRIBUTES * sizeofSimdvector

/-- The primitive topologies handled by the cut-aware assembler's
constructor dispatch (`PA_STATE_CUT::PA_STATE_CUT`). -/
inductive PRIMITIVE_TOPOLOGY where
  | TOP_POINT_LIST
  | TOP_LINE_LIST
  | TOP_LINE_STRIP
  | TOP_LINE_LIST_ADJ
  | TOP_LISTSTRIP_ADJ
  | TOP_TRIANGLE_LIST
  | TOP_TRIANGLE_STRIP
  | TOP_TRI_LIST_ADJ
  | TOP_TRI_STRIP_ADJ
  deriving DecidableEq, Repr

open PRIMITIVE_TOPOLOGY

/-- Modelled from the spec: `NumVertsPerPrim(topo, gsEnabled)` is declared in
`frontend.h` (not under `src/`).  Per the spec, the geometry-stage-disabled
forms of the adjacency topologies only retain the vertices of the core
primitive, so the count collapses to the non-adjacency count. -/
def NumVertsPerPrim (topo : PRIMITIVE_TOPOLOGY) (gsEnabled : Bool) : Nat :=
  match topo with
  | TOP_POINT_LIST => 1
  | TOP_LINE_LIST => 2
  | TOP_LINE_STRIP => 2
  | TOP_LINE_LIST_ADJ => if gsEnabled then 4 else 2
  | TOP_LISTSTRIP_ADJ => if gsEnabled then 4 else 2
  | TOP_TRIANGLE_LIST => 3
  | TOP_TRIANGLE_STRIP => 3
  | TOP_TRI_LIST_ADJ => if gsEnabled then 6 else 3
  | TOP_TRI_STRIP_ADJ => if gsEnabled then 6 else 3

/-- Update a one-index table (the `vert` window) at one position. -/
def upd1 (f : Nat → Nat) (i v : Nat) : Nat → Nat :=
  fun a => if a = i then v else f a

/-- Update a two-index table (the `indices` gather table, indexed by
vertex-within-primitive slot and lane) at one position. -/
def upd2 (f : Nat → Nat → Nat) (i j v : Nat) : Nat → Nat → Nat :=
  fun a b => if a = i ∧ b = j then v else f a b

/-- State of the cut-aware assembler `PA_STATE_CUT`.  The C++ member function
pointer `pfnPa` is replaced by the pair `(binTopology, gsEnabled)` that the
constructor uses to select it; the raw buffers become functions: `indices`
and `vOffsets` map (vertex-in-prim slot, lane) to a stored value, `vert` maps
a window slot to a vertex index, and `cutBits` gives the per-vertex restart
bit held in the caller-written `pCutIndices` buffer. -/
structure PA_STATE_CUT where
  numVerts : Nat
  numAttribs : Nat
  numRemainingVerts : Int
  numVertsToAssemble : Nat
  indices : Nat → Nat → Nat
  vOffsets : Nat → Nat → Nat
  numPrimsAssembled : Nat
  headVertex : Nat
  tailVertex : Nat
  curVertex : Nat
  vPrimId : Nat
  needOffsets : Bool
  vertsPerPrim : Nat
  processCutVerts : Bool
  vert : Nat → Nat
  curIndex : Nat
  reverseWinding : Bool
  adjExtraVert : Int
  binTopology : PRIMITIVE_TOPOLOGY
  gsEnabled : Bool
  cutBits : Nat → Bool

namespace PA_STATE_CUT

/-- `PA_STATE_CUT` constructor.  `vert` and `vOffsets` are uninitialized in
C++; they are modelled as all-zero (no claim depends on their initial
content).  `vPrimId` holds lane values `vPrimId + i`, so the vector
`{0,..,7}` set by the constructor is the base value 0. -/
def mkCut (topo : PRIMITIVE_TOPOLOGY) (gsEnabled : Bool)
    (in_streamSizeInVerts in_numVerts : Nat) (in_cutBits : Nat → Bool)
    (in_processCutVerts : Bool) : PA_STATE_CUT :=
  { numVerts := in_streamSizeInVerts
    numAttribs := 0
    numRemainingVerts := Int.ofNat in_numVerts
    numVertsToAssemble := in_numVerts
    indices := fun _ _ => 0
    vOffsets := fun _ _ => 0
    numPrimsAssembled := 0
    headVertex := 0
    tailVertex := 0
    curVertex := 0
    vPrimId := 0
    needOffsets := false
    vertsPerPrim := NumVertsPerPrim topo gsEnabled
    processCutVerts := in_processCutVerts
    vert := fun _ => 0
    curIndex := 0
    reverseWinding := false
    adjExtraVert := -1
    binTopology := topo
    gsEnabled := gsEnabled
    cutBits := in_cutBits }

/-- `GetNextVsOutput`: hand the caller the next write slot — advance the head
cursor by one batch (cyclically) and mark the gather offsets dirty. -/
def GetNextVsOutput (s : PA_STATE_CUT) : PA_STATE_CUT :=
  { s with headVertex := (s.headVertex + KNOB_SIMD_WIDTH) % s.numVerts
           needOffsets := true }

/-- `Reset`. -/
def Reset (s : PA_STATE_CUT) : PA_STATE_CUT :=
  { s with numRemainingVerts := Int.ofNat s.numVertsToAssemble
           numPrimsAssembled := 0
           curIndex := 0
           curVertex := 0
           tailVertex := 0
           headVertex := 0
           reverseWinding := false
           adjExtraVert := -1
           vPrimId := 0 }

/-- `HasWork`. -/
def HasWork (s : PA_STATE_CUT) : Bool :=
  decide (0 < s.numRemainingVerts) || decide (s.adjExtraVert ≠ -1)

/-- `IsVertexStoreFull`. -/
def IsVertexStoreFull (s : PA_STATE_CUT) : Bool :=
  decide (((s.headVertex + KNOB_SIMD_WIDTH) % s.numVerts) = s.tailVertex)

/-- `RestartTopology`. -/
def RestartTopology (s : PA_STATE_CUT) : PA_STATE_CUT :=
  { s with curIndex := 0
           reverseWinding := false
           adjExtraVert := -1 }

/-- `IsCutIndex`: the bit-test `_bittest(&pCutIndices[v/8], v&7)` reads the
restart bit of vertex `v`, which the model holds directly in `cutBits`. -/
def IsCutIndex (s : PA_STATE_CUT) (vertex : Nat) : Bool :=
  s.cutBits vertex

/-- `ProcessVertTriList`. -/
def ProcessVertTriList (s : PA_STATE_CUT) (index : Nat) (_finish : Bool) :
    PA_STATE_CUT :=
  let s := { s with vert := upd1 s.vert s.curIndex index
                    curIndex := s.curIndex + 1 }
  if s.curIndex = 3 then
    let idx := upd2 (upd2 (upd2 s.indices 0 s.numPrimsAssembled (s.vert 0))
        1 s.numPrimsAssembled (s.vert 1)) 2 s.numPrimsAssembled (s.vert 2)
    { s with
      indices := idx
      numPrimsAssembled := s.numPrimsAssembled + 1
      curIndex := 0 }
  else s

/-- `ProcessVertTriStrip`. -/
def ProcessVertTriStrip (s : PA_STATE_CUT) (index : Nat) (_finish : Bool) :
    PA_STATE_CUT :=
  let s := { s with vert := upd1 s.vert s.curIndex index
                    curIndex := s.curIndex + 1 }
  if s.curIndex = 3 then
    let idx :=
      if s.reverseWinding then
        upd2 (upd2 (upd2 s.indices 0 s.numPrimsAssembled (s.vert 0))
          1 s.numPrimsAssembled (s.vert 2)) 2 s.numPrimsAssembled (s.vert 1)
      else
        upd2 (upd2 (upd2 s.indices 0 s.numPrimsAssembled (s.vert 0))
          1 s.numPrimsAssembled (s.vert 1)) 2 s.numPrimsAssembled (s.vert 2)
    { s with
      indices := idx
      numPrimsAssembled := s.numPrimsAssembled + 1
      vert := upd1 (upd1 s.vert 0 (s.vert 1)) 1 (s.vert 2)
      curIndex := 2
      reverseWinding := !s.reverseWinding }
  else s

/-- `AssembleTriStripAdj<false>` (geometry stage disabled): shuffle the core
vertices into the window, emit the core triangle `{vert0, vert1, vert2}`,
then restore the window layout. -/
def AssembleTriStripAdjNoGs (s : PA_STATE_CUT) : PA_STATE_CUT :=
  let v := upd1 (upd1 s.vert 1 (s.vert 2)) 2 (s.vert 4)
  let idx := upd2 (upd2 (upd2 s.indices 0 s.numPrimsAssembled (v 0))
      1 s.numPrimsAssembled (v 1)) 2 s.numPrimsAssembled (v 2)
  let v2 := upd1 (upd1 v 4 (v 2)) 2 (v 1)
  { s with vert := v2
           indices := idx
           numPrimsAssembled := s.numPrimsAssembled + 1 }

/-- `AssembleTriStripAdj<true>` (geometry stage enabled): emit all six
window vertices. -/
def AssembleTriStripAdjGs (s : PA_STATE_CUT) : PA_STATE_CUT :=
  let idx := upd2 (upd2 (upd2 (upd2 (upd2 (upd2 s.indices
      0 s.numPrimsAssembled (s.vert 0)) 1 s.numPrimsAssembled (s.vert 1))
      2 s.numPrimsAssembled (s.vert 2)) 3 s.numPrimsAssembled (s.vert 3))
      4 s.numPrimsAssembled (s.vert 4)) 5 s.numPrimsAssembled (s.vert 5)
  { s with
    indices := idx
    numPrimsAssembled := s.numPrimsAssembled + 1 }

/-- The window reorder (`nextTri`) shared by the `curIndex = 5` (no-GS) and
`curIndex = 6` cases of `ProcessVertTriStripAdj`.  `nextTri[3]` is
uninitialized in the C++ (benign: every path overwrites `vert[3]` before
reading it), modelled as leaving `vert 3` unchanged. -/
def triStripAdjReorder (s : PA_STATE_CUT) : PA_STATE_CUT :=
  if s.reverseWinding then
    let v := upd1 (upd1 (upd1 (upd1 (upd1 s.vert 0 (s.vert 4)) 1 (s.vert 0))
        2 (s.vert 2)) 4 (s.vert 3)) 5 s.adjExtraVert.toNat
    { s with vert := v }
  else
    let v := upd1 (upd1 (upd1 (upd1 (upd1 s.vert 0 (s.vert 2))
        1 s.adjExtraVert.toNat) 2 (s.vert 3)) 4 (s.vert 4)) 5 (s.vert 0)
    { s with vert := v }

/-- `ProcessVertTriStripAdj<gsEnabled>`. -/
def ProcessVertTriStripAdj (gs : Bool) (s : PA_STATE_CUT) (index : Nat)
    (finish : Bool) : PA_STATE_CUT :=
  if finish ∧ s.adjExtraVert ≠ -1 then
    let s := { s with vert := upd1 s.vert 3 s.adjExtraVert.toNat }
    let s := if gs then AssembleTriStripAdjGs s else AssembleTriStripAdjNoGs s
    { s with adjExtraVert := -1 }
  else
    match s.curIndex with
    | 0 => { s with vert := upd1 s.vert s.curIndex index
                    curIndex := s.curIndex + 1 }
    | 1 => { s with vert := upd1 s.vert s.curIndex index
                    curIndex := s.curIndex + 1 }
    | 2 => { s with vert := upd1 s.vert s.curIndex index
                    curIndex := s.curIndex + 1 }
    | 4 => { s with vert := upd1 s.vert s.curIndex index
                    curIndex := s.curIndex + 1 }
    | 3 => { s with vert := upd1 s.vert 5 index
                    curIndex := s.curIndex + 1 }
    | 5 =>
      if s.adjExtraVert = -1 then
        { s with adjExtraVert := Int.ofNat index }
      else
        let s := { s with vert := upd1 s.vert 3 index }
        if !gs then
          let s := AssembleTriStripAdjNoGs s
          let s := triStripAdjReorder s
          { s with adjExtraVert := -1
                   reverseWinding := !s.reverseWinding }
        else
          { s with curIndex := s.curIndex + 1 }
    | 6 =>
      let s := if gs then AssembleTriStripAdjGs s else AssembleTriStripAdjNoGs s
      let s := triStripAdjReorder s
      { s with reverseWinding := !s.reverseWinding
               adjExtraVert := Int.ofNat index
               curIndex := s.curIndex - 1 }
    | _ => s

/-- `ProcessVertTriListAdj`. -/
def ProcessVertTriListAdj (s : PA_STATE_CUT) (index : Nat) (_finish : Bool) :
    PA_STATE_CUT :=
  let s := { s with vert := upd1 s.vert s.curIndex index
                    curIndex := s.curIndex + 1 }
  if s.curIndex = 6 then
    let idx := upd2 (upd2 (upd2 (upd2 (upd2 (upd2 s.indices
        0 s.numPrimsAssembled (s.vert 0)) 1 s.numPrimsAssembled (s.vert 1))
        2 s.numPrimsAssembled (s.vert 2)) 3 s.numPrimsAssembled (s.vert 3))
        4 s.numPrimsAssembled (s.vert 4)) 5 s.numPrimsAssembled (s.vert 5)
    { s with
      indices := idx
      numPrimsAssembled := s.numPrimsAssembled + 1
      curIndex := 0 }
  else s

/-- `ProcessVertTriListAdjNoGs`. -/
def ProcessVertTriListAdjNoGs (s : PA_STATE_CUT) (index : Nat)
    (_finish : Bool) : PA_STATE_CUT :=
  let s := { s with vert := upd1 s.vert s.curIndex index
                    curIndex := s.curIndex + 1 }
  if s.curIndex = 6 then
    let idx := upd2 (upd2 (upd2 s.indices 0 s.numPrimsAssembled (s.vert 0))
        1 s.numPrimsAssembled (s.vert 2)) 2 s.numPrimsAssembled (s.vert 4)
    { s with
      indices := idx
      numPrimsAssembled := s.numPrimsAssembled + 1
      curIndex := 0 }
  else s

/-- `ProcessVertLineList`. -/
def ProcessVertLineList (s : PA_STATE_CUT) (index : Nat) (_finish : Bool) :
    PA_STATE_CUT :=
  let s := { s with vert := upd1 s.vert s.curIndex index
                    curIndex := s.curIndex + 1 }
  if s.curIndex = 2 then
    let idx := upd2 (upd2 s.indices 0 s.numPrimsAssembled (s.vert 0))
        1 s.numPrimsAssembled (s.vert 1)
    { s with
      indices := idx
      numPrimsAssembled := s.numPrimsAssembled + 1
      curIndex := 0 }
  else s

/-- `ProcessVertLineStrip`. -/
def ProcessVertLineStrip (s : PA_STATE_CUT) (index : Nat) (_finish : Bool) :
    PA_STATE_CUT :=
  let s := { s with vert := upd1 s.vert s.curIndex index
                    curIndex := s.curIndex + 1 }
  if s.curIndex = 2 then
    let idx := upd2 (upd2 s.indices 0 s.numPrimsAssembled (s.vert 0))
        1 s.numPrimsAssembled (s.vert 1)
    { s with
      indices := idx
      numPrimsAssembled := s.numPrimsAssembled + 1
      vert := upd1 s.vert 0 (s.vert 1)
      curIndex := 1 }
  else s

/-- `ProcessVertLineStripAdj`. -/
def ProcessVertLineStripAdj (s : PA_STATE_CUT) (index : Nat) (_finish : Bool) :
    PA_STATE_CUT :=
  let s := { s with vert := upd1 s.vert s.curIndex index
                    curIndex := s.curIndex + 1 }
  if s.curIndex = 4 then
    let idx := upd2 (upd2 (upd2 (upd2 s.indices
        0 s.numPrimsAssembled (s.vert 0)) 1 s.numPrimsAssembled (s.vert 1))
        2 s.numPrimsAssembled (s.vert 2)) 3 s.numPrimsAssembled (s.vert 3)
    { s with
      indices := idx
      numPrimsAssembled := s.numPrimsAssembled + 1
      vert := upd1 (upd1 (upd1 s.vert 0 (s.vert 1)) 1 (s.vert 2)) 2 (s.vert 3)
      curIndex := 3 }
  else s

/-- `ProcessVertLineStripAdjNoGs`. -/
def ProcessVertLineStripAdjNoGs (s : PA_STATE_CUT) (index : Nat)
    (_finish : Bool) : PA_STATE_CUT :=
  let s := { s with vert := upd1 s.vert s.curIndex index
                    curIndex := s.curIndex + 1 }
  if s.curIndex = 4 then
    let idx := upd2 (upd2 s.indices 0 s.numPrimsAssembled (s.vert 1))
        1 s.numPrimsAssembled (s.vert 2)
    { s with
      indices := idx
      numPrimsAssembled := s.numPrimsAssembled + 1
      vert := upd1 (upd1 (upd1 s.vert 0 (s.vert 1)) 1 (s.vert 2)) 2 (s.vert 3)
      curIndex := 3 }
  else s

/-- `ProcessVertLineListAdj`. -/
def ProcessVertLineListAdj (s : PA_STATE_CUT) (index : Nat) (_finish : Bool) :
    PA_STATE_CUT :=
  let s := { s with vert := upd1 s.vert s.curIndex index
                    curIndex := s.curIndex + 1 }
  if s.curIndex = 4 then
    let idx := upd2 (upd2 (upd2 (upd2 s.indices
        0 s.numPrimsAssembled (s.vert 0)) 1 s.numPrimsAssembled (s.vert 1))
        2 s.numPrimsAssembled (s.vert 2)) 3 s.numPrimsAssembled (s.vert 3)
    { s with
      indices := idx
      numPrimsAssembled := s.numPrimsAssembled + 1
      curIndex := 0 }
  else s

/-- `ProcessVertLineListAdjNoGs`. -/
def ProcessVertLineListAdjNoGs (s : PA_STATE_CUT) (index : Nat)
    (_finish : Bool) : PA_STATE_CUT :=
  let s := { s with vert := upd1 s.vert s.curIndex index
                    curIndex := s.curIndex + 1 }
  if s.curIndex = 4 then
    let idx := upd2 (upd2 s.indices 0 s.numPrimsAssembled (s.vert 1))
        1 s.numPrimsAssembled (s.vert 2)
    { s with
      indices := idx
      numPrimsAssembled := s.numPrimsAssembled + 1
      curIndex := 0 }
  else s

/-- `ProcessVertPointList`. -/
def ProcessVertPointList (s : PA_STATE_CUT) (index : Nat) (_finish : Bool) :
    PA_STATE_CUT :=
  let s := { s with vert := upd1 s.vert s.curIndex index
                    curIndex := s.curIndex + 1 }
  if s.curIndex = 1 then
    { s with
      indices := upd2 s.indices 0 s.numPrimsAssembled (s.vert 0)
      numPrimsAssembled := s.numPrimsAssembled + 1
      curIndex := 0 }
  else s

/-- The indirect call `(this->*pfnPa)(vert, finish)`: the constructor selects
the handler from the topology and the geometry-stage flag. -/
def processVert (s : PA_STATE_CUT) (index : Nat) (finish : Bool) :
    PA_STATE_CUT :=
  match s.binTopology, s.gsEnabled with
  | TOP_TRIANGLE_LIST, _ => ProcessVertTriList s index finish
  | TOP_TRI_LIST_ADJ, true => ProcessVertTriListAdj s index finish
  | TOP_TRI_LIST_ADJ, false => ProcessVertTriListAdjNoGs s index finish
  | TOP_TRIANGLE_STRIP, _ => ProcessVertTriStrip s index finish
  | TOP_TRI_STRIP_ADJ, g => ProcessVertTriStripAdj g s index finish
  | TOP_POINT_LIST, _ => ProcessVertPointList s index finish
  | TOP_LINE_LIST, _ => ProcessVertLineList s index finish
  | TOP_LINE_LIST_ADJ, true => ProcessVertLineListAdj s index finish
  | TOP_LINE_LIST_ADJ, false => ProcessVertLineListAdjNoGs s index finish
  | TOP_LINE_STRIP, _ => ProcessVertLineStrip s index finish
  | TOP_LISTSTRIP_ADJ, true => ProcessVertLineStripAdj s index finish
  | TOP_LISTSTRIP_ADJ, false => ProcessVertLineStripAdjNoGs s index finish

/-- Guard of the `while` loop in `ProcessVerts`. -/
def loopCond (s : PA_STATE_CUT) : Bool :=
  (s.numPrimsAssembled != KNOB_SIMD_WIDTH) &&
  decide (0 < s.numRemainingVerts) &&
  (s.curVertex != s.headVertex)

/-- One iteration of the `ProcessVerts` loop body: dispatch on the cut bit
(optionally feeding the cut vertex, finishing a pending tri-strip-adj
primitive, and restarting the topology), then advance the read cursor
cyclically and decrement the remaining-vertex count. -/
def stepVert (s : PA_STATE_CUT) : PA_STATE_CUT :=
  let s :=
    if s.IsCutIndex s.curVertex then
      let s := if s.processCutVerts then s.processVert s.curVertex false else s
      let s := if s.adjExtraVert ≠ -1 then s.processVert s.curVertex true else s
      s.RestartTopology
    else
      s.processVert s.curVertex false
  { s with curVertex := (s.curVertex + 1) % s.numVerts
           numRemainingVerts := s.numRemainingVerts - 1 }

/-- The `ProcessVerts` loop, with explicit fuel. Fuel equal to the
remaining-vertex count suffices because each iteration decrements it. -/
def loopVerts : Nat → PA_STATE_CUT → PA_STATE_CUT
  | 0, s => s
  | fuel + 1, s => if loopCond s then loopVerts fuel (stepVert s) else s

/-- Condition of the trailing special case of `ProcessVerts` (finish the last
tri-strip-adj primitive once input is exhausted). -/
def finishCond (s : PA_STATE_CUT) : Bool :=
  (s.numPrimsAssembled != KNOB_SIMD_WIDTH) &&
  decide (s.numRemainingVerts = 0) &&
  decide (s.adjExtraVert ≠ -1)

/-- `ProcessVerts`. -/
def ProcessVerts (s : PA_STATE_CUT) : PA_STATE_CUT :=
  let t := loopVerts s.numRemainingVerts.toNat s
  if finishCond t then t.processVert t.curVertex true else t

/-- `Advance`. -/
def Advance (s : PA_STATE_CUT) : PA_STATE_CUT :=
  { s with tailVertex := s.curVertex
           numPrimsAssembled := 0
           vPrimId := s.vPrimId + KNOB_SIMD_WIDTH }

/-- `NextPrim`: advance past a retired batch when it is full or input is
exhausted; always returns `false`. -/
def NextPrim (s : PA_STATE_CUT) : PA_STATE_CUT × Bool :=
  (if s.numPrimsAssembled = KNOB_SIMD_WIDTH ∨ s.numRemainingVerts ≤ 0
   then s.Advance else s, false)

/-- `ComputeOffsets`: for each live vertex-in-primitive slot and lane, turn
the absolute vertex index into a byte offset — batch number
(`index >> 3`) times the `simdvertex` stride plus in-batch lane
(`index & 7`) times `sizeof(float)`. -/
def ComputeOffsets (s : PA_STATE_CUT) : PA_STATE_CUT :=
  { s with vOffsets := fun v lane =>
      if v < s.vertsPerPrim ∧ lane < KNOB_SIMD_WIDTH then
        (s.indices v lane / 8) * sizeofSimdvertex +
          (s.indices v lane % 8) * 4
      else s.vOffsets v lane }

/-- `Assemble` (state part): process outstanding verts, fail if the batch is
incomplete while input remains, else lazily recompute the gather offsets.
The data gather itself is pure and modelled by `AssembleOut`. -/
def Assemble (s : PA_STATE_CUT) : PA_STATE_CUT × Bool :=
  let s := s.ProcessVerts
  if s.numPrimsAssembled ≠ KNOB_SIMD_WIDTH ∧ 0 < s.numRemainingVerts then
    (s, false)
  else
    let s := if s.needOffsets then
      { s.ComputeOffsets with needOffsets := false } else s
    (s, true)

/-- The data written by `Assemble` for vertex slot `v`, component `c`,
lane `lane` of attribute `slot`: a gather from the vertex stream (modelled
as a byte-addressed map of float cells) at the cached byte offset plus the
attribute offset `slot * sizeof(simdvector)` plus the component offset
`c * KNOB_SIMD_WIDTH * sizeof(float)`. -/
def AssembleOut (s : PA_STATE_CUT) (stream : Nat → Int)
    (slot v c lane : Nat) : Int :=
  stream (s.vOffsets v lane + slot * sizeofSimdvector +
    c * KNOB_SIMD_WIDTH * 4)

/-- The data read by `AssembleSingle` for one lane (`triIndex`): the same
cached offset and walk as the batched gather. -/
def AssembleSingleOut (s : PA_STATE_CUT) (stream : Nat → Int)
    (slot triIndex v c : Nat) : Int :=
  stream (s.vOffsets v triIndex + sizeofSimdvector * slot +
    c * KNOB_SIMD_WIDTH * 4)

/-- `NumPrims`. -/
def NumPrims (s : PA_STATE_CUT) : Nat :=
  s.numPrimsAssembled

end PA_STATE_CUT

/-- `2^32`, the modulus of the `uint32_t` arithmetic in `PA_STATE_OPT`. -/
def U32 : Nat := 4294967296

/-- State of the optimized (non-cut-aware) assembler `PA_STATE_OPT`.  The
function-pointer fields (`pfnPaFunc` and friends) are opaque handles here:
the per-topology transition functions live outside this source file, so they
are modelled as abstract identifiers that `NextPrim`/`Reset` shuffle exactly
as the C++ does.  Counters are `uint32_t`, held as `Nat` values below `2^32`
with explicit wraparound where an operation can overflow. -/
structure PA_STATE_OPT where
  numPrims : Nat
  numPrimsComplete : Nat
  numSimdPrims : Nat
  cur : Nat
  prev : Nat
  first : Nat
  counter : Nat
  reset : Bool
  primIDIncr : Nat
  primID : Nat
  pfnPaFunc : Nat
  pfnPaFuncReset : Nat
  pfnPaNextFunc : Nat
  nextNumSimdPrims : Nat
  nextNumPrimsIncrement : Nat
  nextReset : Bool
  isStreaming : Bool
  streamSizeInVerts : Nat

namespace PA_STATE_OPT

/-- `HasWork`. -/
def HasWork (s : PA_STATE_OPT) : Bool :=
  decide (s.numPrimsComplete < s.numPrims)

/-- `NumPrims`: lane count of the final partial batch.  All arithmetic is
`uint32_t`: the sum `numPrimsComplete + nextNumPrimsIncrement` wraps mod
`2^32` before the `>` comparison, and the subtraction
`KNOB_SIMD_WIDTH - (sum - numPrims)` wraps as well (the inner difference
cannot underflow in the taken branch, where `sum > numPrims`). -/
def NumPrims (s : PA_STATE_OPT) : Nat :=
  if (s.numPrimsComplete + s.nextNumPrimsIncrement) % U32 > s.numPrims then
    (KNOB_SIMD_WIDTH + U32 -
      (((s.numPrimsComplete + s.nextNumPrimsIncrement) % U32 - s.numPrims) %
        U32)) % U32
  else
    KNOB_SIMD_WIDTH

/-- `NextPrim`: commit the staged next state, retire the committed increment,
then report whether simd primitives remain queued and the draw still has
work. -/
def NextPrim (s : PA_STATE_OPT) : PA_STATE_OPT × Bool :=
  let s := { s with pfnPaFunc := s.pfnPaNextFunc
                    numSimdPrims := s.nextNumSimdPrims
                    numPrimsComplete :=
                      (s.numPrimsComplete + s.nextNumPrimsIncrement) % U32
                    reset := s.nextReset }
  let s := if s.isStreaming then { s with reset := false } else s
  let morePrims := decide (0 < s.numSimdPrims)
  let s :=
    if 0 < s.numSimdPrims then
      { s with numSimdPrims := s.numSimdPrims - 1 }
    else
      { s with counter := if s.reset then 0 else s.counter + 1
               reset := false }
  let s := { s with pfnPaFunc := s.pfnPaNextFunc }
  let morePrims := if !s.HasWork then false else morePrims
  (s, morePrims)

/-- `Reset`. -/
def Reset (s : PA_STATE_OPT) : PA_STATE_OPT :=
  { s with pfnPaFunc := s.pfnPaFuncReset
           numPrimsComplete := 0
           numSimdPrims := 0
           cur := 0
           prev := 0
           first := 0
           counter := 0
           reset := false }

end PA_STATE_OPT

/-- State of the tessellation-output assembler `PA_TESS`.  The three index
arrays `m_ppIndices[0..2]` are modelled as functions from array position to
stored index; `NextPrim`'s pointer bump becomes shifting each function. -/
structure PA_TESS where
  m_attributeStrideInVectors : Nat
  m_numAttributes : Nat
  m_numPrims : Nat
  m_ppIndices0 : Nat → Nat
  m_ppIndices1 : Nat → Nat
  m_ppIndices2 : Nat → Nat
  m_numVertsPerPrim : Nat
  m_vPrimId : Nat

namespace PA_TESS

/-- Select one of the three index arrays (vertex-in-primitive slot `v`). -/
def ppIndices (s : PA_TESS) (v : Nat) : Nat → Nat :=
  if v = 0 then s.m_ppIndices0
  else if v = 1 then s.m_ppIndices1
  else s.m_ppIndices2

/-- `HasWork`. -/
def HasWork (s : PA_TESS) : Bool :=
  decide (s.m_numPrims ≠ 0)

/-- `NumPrims`: `std::min(m_numPrims, KNOB_SIMD_WIDTH)`. -/
def NumPrims (s : PA_TESS) : Nat :=
  min s.m_numPrims KNOB_SIMD_WIDTH

/-- The float-array position read by `PA_TESS::Assemble` for attribute
`slot`, component `c`, vertex index `index`: the gather base starts at
`m_pVertexData + slot * m_attributeStrideInVectors * 4` simd vectors and
advances one attribute-stride of `KNOB_SIMD_WIDTH` floats per component. -/
def vertDataPos (s : PA_TESS) (slot c index : Nat) : Nat :=
  slot * s.m_attributeStrideInVectors * 4 * KNOB_SIMD_WIDTH +
    c * s.m_attributeStrideInVectors * KNOB_SIMD_WIDTH + index

/-- `Assemble` returns false exactly when no primitives remain. -/
def AssembleRet (s : PA_TESS) : Bool :=
  decide (s.NumPrims ≠ 0)

/-- The data `PA_TESS::Assemble` writes for vertex-in-primitive slot `v`,
component `c`, lane `lane` of attribute `slot`: a masked gather over the
current index arrays — lanes beyond the remaining primitive count are
zero-filled by the mask. -/
def AssembleOut (s : PA_TESS) (vertData : Nat → Int) (slot v c lane : Nat) :
    Int :=
  if lane < s.NumPrims then
    vertData (s.vertDataPos slot c (s.ppIndices v lane))
  else 0

/-- The data `PA_TESS::AssembleSingle` writes for vertex-in-primitive slot
`v`, component `c` of primitive `primIndex`. -/
def AssembleSingleOut (s : PA_TESS) (vertData : Nat → Int)
    (slot primIndex v c : Nat) : Int :=
  vertData (s.vertDataPos slot c (s.ppIndices v primIndex))

/-- `NextPrim`: consume `NumPrims()` primitives — decrement the remaining
count and bump all three index-array pointers — and return `HasWork()`. -/
def NextPrim (s : PA_TESS) : PA_TESS × Bool :=
  let n := s.NumPrims
  let s := { s with m_numPrims := s.m_numPrims - n
                    m_ppIndices0 := fun k => s.m_ppIndices0 (k + n)
                    m_ppIndices1 := fun k => s.m_ppIndices1 (k + n)
                    m_ppIndices2 := fun k => s.m_ppIndices2 (k + n) }
  (s, s.HasWork)

/-- `Reset` is unimplemented for `PA_TESS` (`SWR_ASSERT(0)`): in a release
build it does nothing. -/
def Reset (s : PA_TESS) : PA_TESS :=
  s

end PA_TESS

namespace PA_STATE_CUT

/-- Feed `k` vertex batches to the cut-aware assembler: the caller calls
`GetNextVsOutput` once per batch and writes the shaded vertices into the
returned ring slot (the data itself lives in the separately-modelled
vertex stream). -/
def feedBatches : Nat → PA_STATE_CUT → PA_STATE_CUT
  | 0, s => s
  | k + 1, s => feedBatches k s.GetNextVsOutput

end PA_STATE_CUT

/-- An all-clear restart bitmask (no cut vertices). -/
def noCuts : Nat → Bool := fun _ => false

/-- A restart bitmask with exactly one cut vertex, at position `m`. -/
def cutAt (m : Nat) : Nat → Bool := fun v => v == m

open PA_STATE_CUT

/-- A triangle-list draw on the cut-aware assembler: fresh state over the
factory-sized 48-vertex ring, `n` vertices to assemble, no restart bits,
`processCutVerts = false` (the factory's construction), three batches fed,
then `ProcessVerts` run. -/
def triListRun (n : Nat) : PA_STATE_CUT :=
  (feedBatches 3 (mkCut TOP_TRIANGLE_LIST false 48 n noCuts false)).ProcessVerts

/-- A triangle-strip draw on the cut-aware assembler: `n` vertices, no
restart bits, two batches fed, then `ProcessVerts` run. -/
def triStripRun (n : Nat) : PA_STATE_CUT :=
  (feedBatches 2 (mkCut TOP_TRIANGLE_STRIP false 48 n noCuts false)).ProcessVerts

/-- A triangle-strip draw of `n` vertices whose vertex 2 carries the restart
bit, with `processCutVerts = false`. -/
def stripCutRun (n : Nat) : PA_STATE_CUT :=
  (feedBatches 1 (mkCut TOP_TRIANGLE_STRIP false 48 n (cutAt 2) false)).ProcessVerts

/-- A triangle-strip-with-adjacency draw (geometry stage disabled) of `n`
vertices over `b` fed batches, no restart bits. -/
def triStripAdjRun (n b : Nat) : PA_STATE_CUT :=
  (feedBatches b (mkCut TOP_TRI_STRIP_ADJ false 48 n noCuts false)).ProcessVerts

/-- A triangle-list draw of 30 vertices with four batches fed: the first
`Assemble` retires a full 8-primitive batch (24 vertices) and 6 fed
vertices remain unprocessed. -/
def c8Feed : PA_STATE_CUT :=
  feedBatches 4 (mkCut TOP_TRIANGLE_LIST false 48 30 noCuts false)

/-- A fresh cut-aware assembler (triangle list, 6 vertices). -/
def c9Fresh : PA_STATE_CUT :=
  mkCut TOP_TRIANGLE_LIST false 48 6 noCuts false

/-- The state reached by a well-behaved caller on a 100-vertex triangle
strip over the 48-slot ring: two batches fed, one full 8-primitive batch
assembled (consuming 10 strip vertices, so `Advance` leaves
`tailVertex = 10`, not batch-aligned), then five more batches fed — every
intermediate `IsVertexStoreFull` check returning `false` (verified in
`C3_counterexample`). -/
def c3Base : PA_STATE_CUT :=
  (((feedBatches 2
    (mkCut TOP_TRIANGLE_STRIP false 48 100 noCuts false)).Assemble).1.NextPrim).1

/-- `c3Base` after the five further feeds. -/
def c3State : PA_STATE_CUT :=
  feedBatches 5 c3Base

/-- Membership of ring slot `x` in the cyclic live range `[tail, head)` —
the vertices fed but not yet consumed, which the spec describes as the
span from the oldest vertex still required (`tailVertex`) up to the write
cursor. -/
def inLiveRange (tail head x : Nat) : Prop :=
  if tail ≤ head then tail ≤ x ∧ x < head else tail ≤ x ∨ x < head

instance (tail head x : Nat) : Decidable (inLiveRange tail head x) := by
  unfold inLiveRange
  infer_instance

/-- A concrete aligned state for the `C3_amended` witness: the fresh
100-vertex strip state with its head advanced one batch and its tail at
slot 24. -/
def c3Aligned : PA_STATE_CUT :=
  { mkCut TOP_TRIANGLE_STRIP false 48 100 noCuts false with
      headVertex := 8
      tailVertex := 24 }

/-- A concrete optimized-assembler state for witnesses: a 21-primitive draw
with 16 primitives complete and a staged increment of 8 (a final partial
batch of 3 valid lanes). -/
def optSample : PA_STATE_OPT :=
  { numPrims := 21
    numPrimsComplete := 16
    numSimdPrims := 0
    cur := 0
    prev := 0
    first := 0
    counter := 0
    reset := false
    primIDIncr := 8
    primID := 0
    pfnPaFunc := 0
    pfnPaFuncReset := 0
    pfnPaNextFunc := 0
    nextNumSimdPrims := 0
    nextNumPrimsIncrement := 8
    nextReset := false
    isStreaming := false
    streamSizeInVerts := 48 }

/-- The wraparound state refuting C4: a draw of `2^32 - 4` primitives at
its final partial batch, `2^32 - 8` of them complete with one more batch of
8 staged — the `uint32_t` sum `numPrimsComplete + nextNumPrimsIncrement`
wraps to 0. -/
def optWrap : PA_STATE_OPT :=
  { optSample with
      numPrims := 4294967292
      numPrimsComplete := 4294967288
      nextNumPrimsIncrement := 8 }

/-- A concrete tessellation-assembler state for witnesses: a 3-primitive
triangle-list batch whose index arrays are small arithmetic sequences. -/
def tessSample : PA_TESS :=
  { m_attributeStrideInVectors := 2
    m_numAttributes := 1
    m_numPrims := 3
    m_ppIndices0 := fun k => 3 * k
    m_ppIndices1 := fun k => 3 * k + 1
    m_ppIndices2 := fun k => 3 * k + 2
    m_numVertsPerPrim := 3
    m_vPrimId := 0 }

namespace PA_STATE_CUT

/-- The topology-state invariant of the cut-aware assembler: only the
tri-strip-adjacency handler ever sets the pending extra vertex.  It holds
on construction and is preserved by every operation. -/
def AdjInv (s : PA_STATE_CUT) : Prop :=
  s.binTopology = TOP_TRI_STRIP_ADJ ∨ s.adjExtraVert = -1

instance (s : PA_STATE_CUT) : Decidable (s.AdjInv) := by
  unfold AdjInv
  infer_instance

end PA_STATE_CUT

namespace PA_STATE_CUT

theorem processVert_rem (s : PA_STATE_CUT) (i : Nat) (f : Bool) :
    (s.processVert i f).numRemainingVerts = s.numRemainingVerts := by
  unfold processVert ProcessVertTriList ProcessVertTriStrip
    ProcessVertTriStripAdj AssembleTriStripAdjGs AssembleTriStripAdjNoGs
    triStripAdjReorder ProcessVertTriListAdj ProcessVertTriListAdjNoGs
    ProcessVertLineList ProcessVertLineStrip ProcessVertLineStripAdj
    ProcessVertLineStripAdjNoGs ProcessVertLineListAdj
    ProcessVertLineListAdjNoGs ProcessVertPointList
  dsimp only
  split <;> (repeat' split) <;> rfl

theorem processVert_topo (s : PA_STATE_CUT) (i : Nat) (f : Bool) :
    (s.processVert i f).binTopology = s.binTopology := by
  unfold processVert ProcessVertTriList ProcessVertTriStrip
    ProcessVertTriStripAdj AssembleTriStripAdjGs AssembleTriStripAdjNoGs
    triStripAdjReorder ProcessVertTriListAdj ProcessVertTriListAdjNoGs
    ProcessVertLineList ProcessVertLineStrip ProcessVertLineStripAdj
    ProcessVertLineStripAdjNoGs ProcessVertLineListAdj
    ProcessVertLineListAdjNoGs ProcessVertPointList
  dsimp only
  split <;> (repeat' split) <;> rfl

theorem processVert_adj_of_ne (s : PA_STATE_CUT) (i : Nat) (f : Bool)
    (h : s.binTopology ≠ TOP_TRI_STRIP_ADJ) :
    (s.processVert i f).adjExtraVert = s.adjExtraVert := by
  unfold processVert ProcessVertTriList ProcessVertTriStrip
    ProcessVertTriListAdj ProcessVertTriListAdjNoGs
    ProcessVertLineList ProcessVertLineStrip ProcessVertLineStripAdj
    ProcessVertLineStripAdjNoGs ProcessVertLineListAdj
    ProcessVertLineListAdjNoGs ProcessVertPointList
  dsimp only
  split <;> first
    | ((repeat' split) <;> rfl)
    | simp_all

theorem processVert_finish_adj (s : PA_STATE_CUT) (i : Nat)
    (htopo : s.binTopology = TOP_TRI_STRIP_ADJ)
    (hadj : s.adjExtraVert ≠ -1) :
    (s.processVert i true).adjExtraVert = -1 := by
  unfold processVert
  split <;> simp_all [ProcessVertTriStripAdj]

end PA_STATE_CUT

namespace PA_STATE_CUT

theorem processVert_inv (s : PA_STATE_CUT) (i : Nat) (f : Bool)
    (h : s.AdjInv) : (s.processVert i f).AdjInv := by
  by_cases ht : s.binTopology = TOP_TRI_STRIP_ADJ
  · exact Or.inl ((processVert_topo s i f).trans ht)
  · rcases h with h | h
    · exact absurd h ht
    · exact Or.inr ((processVert_adj_of_ne s i f ht).trans h)

theorem stepVert_rem (s : PA_STATE_CUT) :
    (s.stepVert).numRemainingVerts = s.numRemainingVerts - 1 := by
  unfold stepVert RestartTopology
  dsimp only
  split
  · split <;> split <;> simp [processVert_rem]
  · simp [processVert_rem]

theorem stepVert_inv (s : PA_STATE_CUT) (h : s.AdjInv) :
    (s.stepVert).AdjInv := by
  unfold stepVert RestartTopology
  dsimp only
  split
  · split <;> split <;> exact Or.inr rfl
  · exact processVert_inv s s.curVertex false h

theorem loopVerts_of_false (fuel : Nat) (s : PA_STATE_CUT)
    (h : loopCond s = false) : loopVerts fuel s = s := by
  cases fuel with
  | zero => rfl
  | succ f => simp [loopVerts, h]

theorem loopVerts_post (fuel : Nat) (s : PA_STATE_CUT)
    (h : s.numRemainingVerts.toNat ≤ fuel) :
    loopCond (loopVerts fuel s) = false := by
  induction fuel generalizing s with
  | zero =>
    have h0 : ¬ (0 < s.numRemainingVerts) := by omega
    simp [loopVerts, loopCond, h0]
  | succ f ih =>
    by_cases hc : loopCond s = true
    · have h0 : 0 < s.numRemainingVerts := by
        have := hc
        unfold loopCond at this
        simp only [Bool.and_eq_true, decide_eq_true_eq] at this
        exact this.1.2
      simp only [loopVerts, hc, if_true]
      apply ih
      rw [stepVert_rem]
      omega
    · rw [Bool.not_eq_true] at hc
      rw [loopVerts_of_false _ _ hc]
      exact hc

theorem loopVerts_inv (fuel : Nat) (s : PA_STATE_CUT) (h : s.AdjInv) :
    (loopVerts fuel s).AdjInv := by
  induction fuel generalizing s with
  | zero => exact h
  | succ f ih =>
    unfold loopVerts
    split
    · exact ih _ (stepVert_inv s h)
    · exact h

theorem processVerts_post (s : PA_STATE_CUT) (h : s.AdjInv) :
    loopCond s.ProcessVerts = false ∧ finishCond s.ProcessVerts = false := by
  unfold ProcessVerts
  dsimp only
  have hlc : loopCond (loopVerts s.numRemainingVerts.toNat s) = false :=
    loopVerts_post _ _ (Nat.le_refl _)
  have hinv : (loopVerts s.numRemainingVerts.toNat s).AdjInv :=
    loopVerts_inv _ _ h
  by_cases hf : finishCond (loopVerts s.numRemainingVerts.toNat s) = true
  · have hcomp := hf
    unfold finishCond at hcomp
    simp only [Bool.and_eq_true, decide_eq_true_eq] at hcomp
    obtain ⟨⟨-, hrem0⟩, hadj⟩ := hcomp
    have htopo : (loopVerts s.numRemainingVerts.toNat s).binTopology =
        TOP_TRI_STRIP_ADJ := by
      rcases hinv with h1 | h1
      · exact h1
      · exact absurd h1 hadj
    rw [if_pos hf]
    constructor
    · unfold loopCond
      rw [processVert_rem, hrem0]
      simp
    · unfold finishCond
      rw [processVert_finish_adj _ _ htopo hadj]
      simp
  · rw [Bool.not_eq_true] at hf
    rw [if_neg (by simp [hf])]
    exact ⟨hlc, hf⟩

theorem processVerts_of_stable (t : PA_STATE_CUT)
    (h1 : loopCond t = false) (h2 : finishCond t = false) :
    t.ProcessVerts = t := by
  unfold ProcessVerts
  dsimp only
  rw [loopVerts_of_false _ _ h1, if_neg (by simp [h2])]

theorem processVerts_inv (s : PA_STATE_CUT) (h : s.AdjInv) :
    (s.ProcessVerts).AdjInv := by
  unfold ProcessVerts
  dsimp only
  have hinv : (loopVerts s.numRemainingVerts.toNat s).AdjInv :=
    loopVerts_inv _ _ h
  split
  · exact processVert_inv _ _ _ hinv
  · exact hinv

theorem Assemble_stable (t : PA_STATE_CUT)
    (h1 : loopCond t = false) (h2 : finishCond t = false) :
    t.Assemble =
      if t.numPrimsAssembled ≠ KNOB_SIMD_WIDTH ∧ 0 < t.numRemainingVerts then
        (t, false)
      else
        (if t.needOffsets then { t.ComputeOffsets with needOffsets := false }
         else t, true) := by
  unfold Assemble
  dsimp only
  rw [processVerts_of_stable t h1 h2]

end PA_STATE_CUT

namespace PA_STATE_CUT

theorem mkCut_adjInv (topo : PRIMITIVE_TOPOLOGY) (gs : Bool) (a b : Nat)
    (cb : Nat → Bool) (pc : Bool) : (mkCut topo gs a b cb pc).AdjInv :=
  Or.inr rfl

theorem GetNextVsOutput_adjInv (s : PA_STATE_CUT) (h : s.AdjInv) :
    (s.GetNextVsOutput).AdjInv :=
  h

theorem feedBatches_adjInv (k : Nat) (s : PA_STATE_CUT) (h : s.AdjInv) :
    (feedBatches k s).AdjInv := by
  induction k generalizing s with
  | zero => exact h
  | succ n ih => exact ih _ (GetNextVsOutput_adjInv s h)

theorem Reset_adjInv (s : PA_STATE_CUT) : (s.Reset).AdjInv :=
  Or.inr rfl

theorem NextPrim_adjInv (s : PA_STATE_CUT) (h : s.AdjInv) :
    ((s.NextPrim).1).AdjInv := by
  unfold NextPrim Advance
  dsimp only
  split <;> exact h

theorem Assemble_adjInv (s : PA_STATE_CUT) (h : s.AdjInv) :
    ((s.Assemble).1).AdjInv := by
  unfold Assemble
  dsimp only
  split
  · exact processVerts_inv s h
  · split
    · exact processVerts_inv s h
    · exact processVerts_inv s h

end PA_STATE_CUT

namespace PA_STATE_CUT

theorem Assemble_stable_more (t : PA_STATE_CUT)
    (h1 : loopCond t = false) (h2 : finishCond t = false)
    (hb : t.numPrimsAssembled ≠ KNOB_SIMD_WIDTH ∧ 0 < t.numRemainingVerts) :
    t.Assemble = (t, false) := by
  rw [Assemble_stable t h1 h2, if_pos hb]

theorem Assemble_stable_done (t : PA_STATE_CUT)
    (h1 : loopCond t = false) (h2 : finishCond t = false)
    (hb : ¬ (t.numPrimsAssembled ≠ KNOB_SIMD_WIDTH ∧
      0 < t.numRemainingVerts))
    (h3 : t.needOffsets = false) :
    t.Assemble = (t, true) := by
  rw [Assemble_stable t h1 h2, if_neg hb, h3, if_neg Bool.false_ne_true]

end PA_STATE_CUT

/-- C1: the claim predicts that feeding `verticesPerPrimitive(topology) x K`
vertices yields exactly `K` primitives for every topology.  For
`TOP_TRIANGLE_STRIP`, `NumVertsPerPrim` is 3, yet feeding `3 x 2 = 6`
vertices assembles 4 primitives, not 2 (a strip of `N` vertices yields
`N - 2` triangles); moreover the first emitted strip triple is `{0,1,2}`,
not the parity-applied `{0,2,1}` the spec lists.  This refutes the claim as
stated. -/
theorem C1_counterexample :
    NumVertsPerPrim TOP_TRIANGLE_STRIP false = 3 ∧
    (triStripRun (3 * 2)).numPrimsAssembled = 4 ∧
    (triStripRun (3 * 2)).numPrimsAssembled ≠ 2 ∧
    ((triStripRun (3 * 2)).indices 0 0, (triStripRun (3 * 2)).indices 1 0,
      (triStripRun (3 * 2)).indices 2 0) = (0, 1, 2) := by
  decide

/-- C1 (amended): with no restart bits, a triangle-list draw of `3K`
vertices (`K ≤ 8`, one SIMD batch) assembles exactly `K` primitives with
gather triples `{3k, 3k+1, 3k+2}`; a triangle-strip draw of `N` vertices
(`3 ≤ N ≤ 10`) assembles exactly `N - 2` primitives whose `k`-th triple is
`{k, k+1, k+2}` for even `k` and `{k, k+2, k+1}` for odd `k` (winding
parity applied, starting un-reversed). -/
theorem C1_amended :
    (∀ K, K < 9 →
      (triListRun (3 * K)).numPrimsAssembled = K ∧
      ∀ k, k < K →
        (triListRun (3 * K)).indices 0 k = 3 * k ∧
        (triListRun (3 * K)).indices 1 k = 3 * k + 1 ∧
        (triListRun (3 * K)).indices 2 k = 3 * k + 2) ∧
    (∀ N, N < 11 → 3 ≤ N →
      (triStripRun N).numPrimsAssembled = N - 2 ∧
      ∀ k, k < N - 2 →
        (triStripRun N).indices 0 k = k ∧
        (triStripRun N).indices 1 k = (if k % 2 = 0 then k + 1 else k + 2) ∧
        (triStripRun N).indices 2 k = (if k % 2 = 0 then k + 2 else k + 1)) := by
  decide

/-- C2: on a triangle strip `[0,1,2,3]` whose vertex 2 carries the restart
bit (`processCutVerts = false`), no primitive is assembled at all (in
particular none spanning the cut); right after the cut vertex the topology
state is fully reset (`curIndex = 0`, `reverseWinding = false`,
`adjExtraVert = -1`); vertex 3 then starts a fresh strip (`vert 0 = 3`,
`curIndex = 1`), and extending the stream with vertices 4 and 5 assembles
exactly the single fresh-strip triangle `{3,4,5}`. -/
theorem C2_cut_splits_strip :
    (stripCutRun 3).numPrimsAssembled = 0 ∧
    (stripCutRun 3).curIndex = 0 ∧
    (stripCutRun 3).reverseWinding = false ∧
    (stripCutRun 3).adjExtraVert = -1 ∧
    (stripCutRun 4).numPrimsAssembled = 0 ∧
    (stripCutRun 4).curIndex = 1 ∧
    (stripCutRun 4).vert 0 = 3 ∧
    (stripCutRun 4).reverseWinding = false ∧
    (stripCutRun 4).adjExtraVert = -1 ∧
    (stripCutRun 6).numPrimsAssembled = 1 ∧
    (stripCutRun 6).indices 0 0 = 3 ∧
    (stripCutRun 6).indices 1 0 = 4 ∧
    (stripCutRun 6).indices 2 0 = 5 := by
  decide

/-- C3: the claim predicts that whenever `IsVertexStoreFull()` is `false`,
writing the next 8-vertex batch at `headVertex` overwrites no vertex still
referenced (at or beyond `tailVertex`).  In `c3State` — reached with every
store-full check along the way `false`, i.e. by a caller obeying the
protocol — the predicate is `false` with `headVertex = 8` and
`tailVertex = 10`, yet the batch write covers ring slots `8..15`, which
include `tailVertex` itself and five further live slots
(`curVertex = tailVertex` and 90 vertices remain unprocessed).  The
equality test `(head + 8) % numVerts == tail` misses a tail that is not
batch-aligned (strips retire 10 vertices per 8 primitives).  This refutes
the claim. -/
theorem C3_counterexample :
    (feedBatches 0 c3Base).IsVertexStoreFull = false ∧
    (feedBatches 1 c3Base).IsVertexStoreFull = false ∧
    (feedBatches 2 c3Base).IsVertexStoreFull = false ∧
    (feedBatches 3 c3Base).IsVertexStoreFull = false ∧
    (feedBatches 4 c3Base).IsVertexStoreFull = false ∧
    c3State.IsVertexStoreFull = false ∧
    c3State.headVertex = 8 ∧
    c3State.tailVertex = 10 ∧
    c3State.curVertex = 10 ∧
    (0 < c3State.numRemainingVerts) ∧
    (2 < KNOB_SIMD_WIDTH ∧
      (c3State.headVertex + 2) % c3State.numVerts = c3State.tailVertex) ∧
    inLiveRange c3State.tailVertex c3State.headVertex
      ((c3State.headVertex + 2) % c3State.numVerts) := by
  decide

/-- C3 (amended): `IsVertexStoreFull` is exactly the test that one more
batch would land `headVertex` on `tailVertex`; provided the ring size, the
head cursor and the tail cursor are all multiples of the batch width (the
head cursor always is; the tail is whenever batches retire whole, as in
list topologies), a `false` predicate guarantees that the next 8-vertex
write `[head, head+8)` touches no slot of the live range `[tail, head)`.
Without tail alignment the guarantee fails (`C3_counterexample`). -/
theorem C3_amended (s : PA_STATE_CUT)
    (hn : s.numVerts % KNOB_SIMD_WIDTH = 0)
    (hh : s.headVertex < s.numVerts)
    (_ht : s.tailVertex < s.numVerts)
    (hha : s.headVertex % KNOB_SIMD_WIDTH = 0)
    (hta : s.tailVertex % KNOB_SIMD_WIDTH = 0)
    (_hfull : s.IsVertexStoreFull = false) :
    s.IsVertexStoreFull =
      decide (((s.headVertex + KNOB_SIMD_WIDTH) % s.numVerts) =
        s.tailVertex) ∧
    ∀ j, j < KNOB_SIMD_WIDTH →
      ¬ inLiveRange s.tailVertex s.headVertex
        ((s.headVertex + j) % s.numVerts) := by
  refine ⟨rfl, ?_⟩
  intro j hj
  have hW : KNOB_SIMD_WIDTH = 8 := rfl
  rw [hW] at hj hha hta hn
  have hlt : s.headVertex + j < s.numVerts := by omega
  rw [Nat.mod_eq_of_lt hlt]
  unfold inLiveRange
  split <;> omega

/-- Witness for `C3_amended` at the concrete aligned state `c3Aligned`. -/
theorem C3_amended_witness :
    (c3Aligned.IsVertexStoreFull =
      decide (((c3Aligned.headVertex + KNOB_SIMD_WIDTH) % c3Aligned.numVerts) =
        c3Aligned.tailVertex) ∧
    ∀ j, j < KNOB_SIMD_WIDTH →
      ¬ inLiveRange c3Aligned.tailVertex c3Aligned.headVertex
        ((c3Aligned.headVertex + j) % c3Aligned.numVerts)) :=
  C3_amended c3Aligned (by decide) (by decide) (by decide) (by decide)
    (by decide) (by decide)

/-- C4: the claim predicts that whenever
`numPrimsComplete + nextNumPrimsIncrement > numPrims`, `NumPrims()` returns
`KNOB_SIMD_WIDTH - (numPrimsComplete + nextNumPrimsIncrement - numPrims)`,
the number of valid lanes of the final partial batch, and never more than
needed.  At `optWrap` — a legal `uint32_t` state of a `2^32 - 4`-primitive
draw, satisfying `numPrimsComplete ≤ numPrims` with a one-batch increment —
the `uint32_t` sum wraps to 0 before the `>` comparison, so the code
returns the full width 8 although only 4 valid lanes remain.  This refutes
the claim as stated. -/
theorem C4_counterexample :
    optWrap.numPrimsComplete ≤ optWrap.numPrims ∧
    optWrap.nextNumPrimsIncrement ≤ KNOB_SIMD_WIDTH ∧
    optWrap.numPrimsComplete + optWrap.nextNumPrimsIncrement >
      optWrap.numPrims ∧
    KNOB_SIMD_WIDTH -
      (optWrap.numPrimsComplete + optWrap.nextNumPrimsIncrement -
        optWrap.numPrims) = 4 ∧
    optWrap.NumPrims = KNOB_SIMD_WIDTH ∧
    optWrap.NumPrims ≠
      KNOB_SIMD_WIDTH -
        (optWrap.numPrimsComplete + optWrap.nextNumPrimsIncrement -
          optWrap.numPrims) := by
  decide

/-- C4 (amended): provided the `uint32_t` sum does not wrap
(`numPrimsComplete + nextNumPrimsIncrement < 2^32`, true of every draw
whose retired-plus-staged primitive count stays below `2^32`) and the
reachable-draw invariants hold (`numPrimsComplete ≤ numPrims`, at most one
batch staged), `PA_STATE_OPT::NumPrims` returns `KNOB_SIMD_WIDTH` when
`numPrimsComplete + nextNumPrimsIncrement ≤ numPrims` and otherwise
`KNOB_SIMD_WIDTH - (numPrimsComplete + nextNumPrimsIncrement - numPrims)`,
the number of valid lanes of the final partial batch; the result never
exceeds the batch width. -/
theorem C4_amended (t : PA_STATE_OPT)
    (hc : t.numPrimsComplete ≤ t.numPrims)
    (hi : t.nextNumPrimsIncrement ≤ KNOB_SIMD_WIDTH)
    (hnw : t.numPrimsComplete + t.nextNumPrimsIncrement < U32) :
    t.NumPrims =
      (if t.numPrimsComplete + t.nextNumPrimsIncrement ≤ t.numPrims
       then KNOB_SIMD_WIDTH
       else KNOB_SIMD_WIDTH -
         (t.numPrimsComplete + t.nextNumPrimsIncrement - t.numPrims)) ∧
    t.NumPrims ≤ KNOB_SIMD_WIDTH := by
  have h8 : t.nextNumPrimsIncrement ≤ 8 := hi
  have hmod : t.numPrimsComplete + t.nextNumPrimsIncrement > t.numPrims →
      (KNOB_SIMD_WIDTH + U32 -
        ((t.numPrimsComplete + t.nextNumPrimsIncrement - t.numPrims) % U32)) %
          U32 =
        8 - (t.numPrimsComplete + t.nextNumPrimsIncrement - t.numPrims) := by
    intro hgt
    have he : t.numPrimsComplete + t.nextNumPrimsIncrement - t.numPrims ≤ 8 := by
      omega
    simp only [KNOB_SIMD_WIDTH, U32]
    have hin : (t.numPrimsComplete + t.nextNumPrimsIncrement - t.numPrims) %
        4294967296 =
        t.numPrimsComplete + t.nextNumPrimsIncrement - t.numPrims :=
      Nat.mod_eq_of_lt (by omega)
    rw [hin]
    have hsplit : 8 + 4294967296 -
        (t.numPrimsComplete + t.nextNumPrimsIncrement - t.numPrims) =
        (8 - (t.numPrimsComplete + t.nextNumPrimsIncrement - t.numPrims)) +
          4294967296 := by
      omega
    rw [hsplit, Nat.add_mod_right, Nat.mod_eq_of_lt (by omega)]
  unfold PA_STATE_OPT.NumPrims
  rw [Nat.mod_eq_of_lt hnw]
  constructor
  · split
    case isTrue hgt =>
      rw [hmod hgt, if_neg (by omega)]
      rfl
    case isFalse hle =>
      rw [if_pos (by omega)]
  · split
    case isTrue hgt =>
      rw [hmod hgt]
      simp only [KNOB_SIMD_WIDTH]
      omega
    case isFalse hle =>
      exact Nat.le_refl _

/-- Witness for `C4_amended` at `optSample` (expected lane count 3). -/
theorem C4_amended_witness :
    optSample.NumPrims =
      (if optSample.numPrimsComplete + optSample.nextNumPrimsIncrement ≤
          optSample.numPrims
       then KNOB_SIMD_WIDTH
       else KNOB_SIMD_WIDTH -
         (optSample.numPrimsComplete + optSample.nextNumPrimsIncrement -
           optSample.numPrims)) ∧
    optSample.NumPrims ≤ KNOB_SIMD_WIDTH :=
  C4_amended optSample (by decide) (by decide) (by decide)

/-- C5: calling `Assemble` repeatedly on the cut-aware assembler without an
intervening `NextPrim` and with no new input fed is idempotent: under the
topology-state invariant `AdjInv` (established at construction and
preserved by every operation), the second call returns the same boolean and
the identical state — so every cursor (`curVertex`, `tailVertex`,
`headVertex`, `numPrimsAssembled`) is unchanged — and, the vertex stream
being untouched, the gathered output data is also identical. -/
theorem C5_assemble_idempotent (s : PA_STATE_CUT) (h : s.AdjInv) :
    (s.Assemble.1).Assemble = s.Assemble ∧
    ∀ stream slot v c lane,
      ((s.Assemble.1).Assemble.1).AssembleOut stream slot v c lane =
        (s.Assemble.1).AssembleOut stream slot v c lane := by
  obtain ⟨hlc, hfc⟩ := PA_STATE_CUT.processVerts_post s h
  have hmain : (s.Assemble.1).Assemble = s.Assemble := by
    have hAs : s.Assemble =
        if (s.ProcessVerts).numPrimsAssembled ≠ KNOB_SIMD_WIDTH ∧
            0 < (s.ProcessVerts).numRemainingVerts then
          (s.ProcessVerts, false)
        else
          (if (s.ProcessVerts).needOffsets then
            { (s.ProcessVerts).ComputeOffsets with needOffsets := false }
           else s.ProcessVerts, true) := rfl
    by_cases hb : (s.ProcessVerts).numPrimsAssembled ≠ KNOB_SIMD_WIDTH ∧
        0 < (s.ProcessVerts).numRemainingVerts
    · have h1 : s.Assemble = (s.ProcessVerts, false) := by
        rw [hAs, if_pos hb]
      rw [h1]
      exact PA_STATE_CUT.Assemble_stable_more _ hlc hfc hb
    · by_cases ho : (s.ProcessVerts).needOffsets = true
      · have h1 : s.Assemble =
            ({ (s.ProcessVerts).ComputeOffsets with needOffsets := false },
              true) := by
          rw [hAs, if_neg hb, if_pos ho]
        rw [h1]
        exact PA_STATE_CUT.Assemble_stable_done _ hlc hfc hb rfl
      · rw [Bool.not_eq_true] at ho
        have h1 : s.Assemble = (s.ProcessVerts, true) := by
          rw [hAs, if_neg hb, ho, if_neg Bool.false_ne_true]
        rw [h1]
        exact PA_STATE_CUT.Assemble_stable_done _ hlc hfc hb ho
  refine ⟨hmain, ?_⟩
  intro stream slot v c lane
  rw [hmain]

/-- Witness for `C5_assemble_idempotent` at a concrete reachable state: a
fresh 6-vertex triangle-list draw (its `adjExtraVert` is `-1`). -/
theorem C5_assemble_idempotent_witness :
    (c9Fresh.AdjInv) ∧
    ((c9Fresh.Assemble.1).Assemble = c9Fresh.Assemble ∧
    ∀ stream slot v c lane,
      ((c9Fresh.Assemble.1).Assemble.1).AssembleOut stream slot v c lane =
        (c9Fresh.Assemble.1).AssembleOut stream slot v c lane) :=
  ⟨by decide, C5_assemble_idempotent c9Fresh (by decide)⟩
/-- C6: for the tessellation assembler, the batched gather of `Assemble`
round-trips through the externally supplied index arrays: for every
primitive lane `i < NumPrims()`, vertex-in-primitive slot `v` and component
`c`, the value written equals the vertex data stored at flat position
`vertDataPos slot c (m_ppIndices[v][i])` — the attribute's component-`c`
lane array at index `m_ppIndices[v][i]` — and `AssembleSingle` reads the
identical value; lanes `i ≥ NumPrims()` are zero-filled by the gather
mask. -/
theorem C6_tess_roundtrip (u : PA_TESS) (vertData : Nat → Int)
    (slot v c i : Nat) (hi : i < u.NumPrims) :
    u.AssembleOut vertData slot v c i =
      vertData (u.vertDataPos slot c (u.ppIndices v i)) ∧
    u.AssembleSingleOut vertData slot i v c =
      vertData (u.vertDataPos slot c (u.ppIndices v i)) ∧
    ∀ j, u.NumPrims ≤ j → u.AssembleOut vertData slot v c j = 0 := by
  refine ⟨?_, rfl, ?_⟩
  · unfold PA_TESS.AssembleOut
    rw [if_pos hi]
  · intro j hj
    unfold PA_TESS.AssembleOut
    rw [if_neg (by omega)]

/-- Witness for `C6_tess_roundtrip` at `tessSample`, primitive 1, vertex
slot 2, component 3. -/
theorem C6_tess_roundtrip_witness :
    tessSample.AssembleOut (fun b => Int.ofNat b) 0 2 3 1 =
      (fun b => Int.ofNat b)
        (tessSample.vertDataPos 0 3 (tessSample.ppIndices 2 1)) ∧
    tessSample.AssembleSingleOut (fun b => Int.ofNat b) 0 1 2 3 =
      (fun b => Int.ofNat b)
        (tessSample.vertDataPos 0 3 (tessSample.ppIndices 2 1)) ∧
    ∀ j, tessSample.NumPrims ≤ j →
      tessSample.AssembleOut (fun b => Int.ofNat b) 0 2 3 j = 0 :=
  C6_tess_roundtrip tessSample (fun b => Int.ofNat b) 0 2 3 1 (by decide)

/-- C7: on `TOP_TRI_STRIP_ADJ` with the geometry stage disabled, feeding the
7 vertices `[0..6]` with no cuts emits exactly one core primitive with
gather triple `{0,2,4}` (adjacency vertices dropped), flipping the
winding-parity bit from its initial `false` to `true`; feeding `[0..8]`
emits a second primitive (triple `{2,6,4}`) and flips the parity bit again,
back to `false` — so parity alternates between consecutively emitted
primitives. -/
theorem C7_tristrip_adj_core :
    (mkCut TOP_TRI_STRIP_ADJ false 48 7 noCuts false).reverseWinding = false ∧
    (triStripAdjRun 7 1).numPrimsAssembled = 1 ∧
    (triStripAdjRun 7 1).indices 0 0 = 0 ∧
    (triStripAdjRun 7 1).indices 1 0 = 2 ∧
    (triStripAdjRun 7 1).indices 2 0 = 4 ∧
    (triStripAdjRun 7 1).reverseWinding = true ∧
    (triStripAdjRun 9 2).numPrimsAssembled = 2 ∧
    (triStripAdjRun 9 2).indices 0 1 = 2 ∧
    (triStripAdjRun 9 2).indices 1 1 = 6 ∧
    (triStripAdjRun 9 2).indices 2 1 = 4 ∧
    (triStripAdjRun 9 2).reverseWinding = false := by
  decide

/-- C8: the claim predicts that the cut-aware `NextPrim` returns `true`
exactly when a further full or final-partial batch is already assemble-able
from previously fed vertices.  Concretely: after a successful full batch on
`c8Feed`, `NextPrim` returns `false`, yet the very next `Assemble` succeeds
(the final partial batch of 2 primitives) without any new input being fed —
`PA_STATE_CUT::NextPrim` unconditionally returns `false`.  This refutes the
claim. -/
theorem C8_counterexample :
    (c8Feed.Assemble).2 = true ∧
    ((c8Feed.Assemble).1.NextPrim).2 = false ∧
    (((c8Feed.Assemble).1.NextPrim).1.Assemble).2 = true ∧
    (((c8Feed.Assemble).1.NextPrim).1.Assemble).1.numPrimsAssembled = 2 := by
  decide

/-- C8 (amended): `NextPrim`'s return value is variant-specific.  The
cut-aware assembler's `NextPrim` always returns `false` (callers poll
`Assemble`/`HasWork` instead); the optimized assembler's returns `true`
exactly when simd primitives remain staged for the current transition and
the draw still has work after retiring the committed increment; the
tessellation assembler's returns `HasWork()` after consuming the batch
(remaining primitive count still nonzero). -/
theorem C8_amended (s : PA_STATE_CUT) (t : PA_STATE_OPT) (u : PA_TESS) :
    (s.NextPrim).2 = false ∧
    (t.NextPrim).2 = (decide (0 < t.nextNumSimdPrims) &&
      decide ((t.numPrimsComplete + t.nextNumPrimsIncrement) % U32 <
        t.numPrims)) ∧
    (u.NextPrim).2 = decide (u.m_numPrims - u.NumPrims ≠ 0) := by
  refine ⟨rfl, ?_, rfl⟩
  simp only [PA_STATE_OPT.NextPrim, PA_STATE_OPT.HasWork]
  by_cases hstr : t.isStreaming <;>
    by_cases hn : 0 < t.nextNumSimdPrims <;>
      by_cases hw : (t.numPrimsComplete + t.nextNumPrimsIncrement) % U32 <
          t.numPrims <;>
        simp [hstr, hn, hw]

/-- C9: the claim predicts that `Reset()` restores the observable state that
held immediately after construction, including the lazy-offset dirty flag.
Concretely: construction leaves `needOffsets = false`, but after one
`GetNextVsOutput` (which sets it) `Reset` leaves it `true` — `Reset` never
touches `needOffsets` (nor the gather-index table, which the constructor
zero-fills).  This refutes the claim. -/
theorem C9_counterexample :
    c9Fresh.needOffsets = false ∧
    (c9Fresh.GetNextVsOutput.Reset).needOffsets = true := by
  decide

/-- C9 (amended): `Reset` restores the cut-aware assembler's cursors,
counters, topology state and primitive-ID vector to their constructed
values, and the optimized assembler's state machine and counters to their
reset values — so the instance can be reused for a new draw — but it leaves
the cut-aware assembler's `needOffsets` flag and gather-index table exactly
as they were, and `PA_TESS::Reset` is unimplemented (an assertion that does
nothing in release builds). -/
theorem C9_amended (s : PA_STATE_CUT) (t : PA_STATE_OPT) (u : PA_TESS) :
    (s.Reset.numRemainingVerts = Int.ofNat s.numVertsToAssemble ∧
     s.Reset.numPrimsAssembled = 0 ∧
     s.Reset.curIndex = 0 ∧
     s.Reset.curVertex = 0 ∧
     s.Reset.tailVertex = 0 ∧
     s.Reset.headVertex = 0 ∧
     s.Reset.reverseWinding = false ∧
     s.Reset.adjExtraVert = -1 ∧
     s.Reset.vPrimId = 0 ∧
     s.Reset.needOffsets = s.needOffsets ∧
     s.Reset.indices = s.indices) ∧
    (t.Reset.pfnPaFunc = t.pfnPaFuncReset ∧
     t.Reset.numPrimsComplete = 0 ∧
     t.Reset.numSimdPrims = 0 ∧
     t.Reset.cur = 0 ∧
     t.Reset.prev = 0 ∧
     t.Reset.first = 0 ∧
     t.Reset.counter = 0 ∧
     t.Reset.reset = false) ∧
    u.Reset = u := by
  exact ⟨⟨rfl, rfl, rfl, rfl, rfl, rfl, rfl, rfl, rfl, rfl, rfl⟩,
    ⟨rfl, rfl, rfl, rfl, rfl, rfl, rfl, rfl⟩, rfl⟩

/-- C10: the tessellation assembler's remaining-primitive count can never
underflow: `NumPrims()` is `min(m_numPrims, KNOB_SIMD_WIDTH)` and so never
exceeds the batch width; `NextPrim` subtracts exactly `NumPrims()` (the
subtraction is exact — no truncation occurs) and shifts all three index
arrays by exactly that amount; the count decreases monotonically, strictly
so while nonzero; and `HasWork` is `false` precisely when the count is
zero, which is also exactly when `NextPrim` reports no more work. -/
theorem C10_tess_invariants (u : PA_TESS) :
    u.NumPrims ≤ KNOB_SIMD_WIDTH ∧
    (u.NextPrim).1.m_numPrims + u.NumPrims = u.m_numPrims ∧
    (∀ k, (u.NextPrim).1.m_ppIndices0 k = u.m_ppIndices0 (k + u.NumPrims) ∧
      (u.NextPrim).1.m_ppIndices1 k = u.m_ppIndices1 (k + u.NumPrims) ∧
      (u.NextPrim).1.m_ppIndices2 k = u.m_ppIndices2 (k + u.NumPrims)) ∧
    (u.NextPrim).1.m_numPrims ≤ u.m_numPrims ∧
    (u.m_numPrims ≠ 0 → (u.NextPrim).1.m_numPrims < u.m_numPrims) ∧
    ((u.NextPrim).2 = true ↔ (u.NextPrim).1.m_numPrims ≠ 0) ∧
    (u.HasWork = false ↔ u.m_numPrims = 0) := by
  refine ⟨?_, ?_, fun k => ⟨rfl, rfl, rfl⟩, ?_, ?_, ?_, ?_⟩
  · simp only [PA_TESS.NumPrims, KNOB_SIMD_WIDTH]
    omega
  · simp only [PA_TESS.NextPrim, PA_TESS.NumPrims]
    omega
  · simp only [PA_TESS.NextPrim, PA_TESS.NumPrims]
    omega
  · intro h
    simp only [PA_TESS.NextPrim, PA_TESS.NumPrims, KNOB_SIMD_WIDTH]
    omega
  · simp only [PA_TESS.NextPrim, PA_TESS.HasWork]
    simp
  · simp only [PA_TESS.HasWork]
    simp

/-- Witness for `C10_tess_invariants` (whose statement carries an inner
implication) at the concrete state `tessSample`. -/
theorem C10_tess_invariants_witness :
    tessSample.NumPrims ≤ KNOB_SIMD_WIDTH ∧
    (tessSample.NextPrim).1.m_numPrims + tessSample.NumPrims =
      tessSample.m_numPrims ∧
    (∀ k, (tessSample.NextPrim).1.m_ppIndices0 k =
        tessSample.m_ppIndices0 (k + tessSample.NumPrims) ∧
      (tessSample.NextPrim).1.m_ppIndices1 k =
        tessSample.m_ppIndices1 (k + tessSample.NumPrims) ∧
      (tessSample.NextPrim).1.m_ppIndices2 k =
        tessSample.m_ppIndices2 (k + tessSample.NumPrims)) ∧
    (tessSample.NextPrim).1.m_numPrims ≤ tessSample.m_numPrims ∧
    (tessSample.m_numPrims ≠ 0 →
      (tessSample.NextPrim).1.m_numPrims < tessSample.m_numPrims) ∧
    ((tessSample.NextPrim).2 = true ↔
      (tessSample.NextPrim).1.m_numPrims ≠ 0) ∧
    (tessSample.HasWork = false ↔ tessSample.m_numPrims = 0) :=
  C10_tess_invariants tessSample

